import Mathlib

/-!
Verification of the `PoetryParser` core of cyclonedx-python
(`src/cyclonedx_py/parser/poetry.py`).

The embedding models the already-decoded TOML documents as a `Toml` value
type and mirrors the dynamic (Python) semantics of the operations the
source performs on them: subscription (`d[k]`, raising `KeyError` /
`TypeError`), `dict.get` (raising `AttributeError` on non-dicts),
truthiness, iteration, `int()` parsing and tuple comparison.  Exceptions
are modelled with `Except PyErr`; the out-of-scope collaborators (purl
construction, distribution-URL construction, composite-hash parsing, the
property-name constant and the diagnostic callback) are modelled from the
spec and marked as such.
-/

/-- Python exception classes that the source can raise or catch.
`cdxModelError` stands for `CycloneDxModelException`, the only class the
source catches. -/
inductive PyErr : Type where
  | keyError (key : String)
  | typeError (msg : String)
  | attributeError (msg : String)
  | valueError (msg : String)
  | cdxModelError (msg : String)
deriving DecidableEq

/-- A decoded TOML value, as produced by the out-of-scope TOML decoder.
`null` is Python `None` (the default of `dict.get`), which can flow
through the source even though TOML itself has no null. -/
inductive Toml : Type where
  | null : Toml
  | bool (b : Bool) : Toml
  | int (n : Int) : Toml
  | str (s : String) : Toml
  | arr (xs : List Toml) : Toml
  | table (kvs : List (String × Toml)) : Toml

/-- First-match lookup in a decoded table (Python dict keys are unique,
so first-match agrees with dict lookup). -/
def findEntry (kvs : List (String × Toml)) (k : String) : Option Toml :=
  match kvs with
  | [] => Option.none
  | (k2, v) :: rest => if k2 = k then some v else findEntry rest k

/-- Python subscription `t[k]` with a string literal key. -/
def pySub (t : Toml) (k : String) : Except PyErr Toml :=
  match t with
  | Toml.table kvs =>
    match findEntry kvs k with
    | some v => Except.ok v
    | Option.none => Except.error (PyErr.keyError k)
  | Toml.str _ => Except.error (PyErr.typeError "string indices must be integers")
  | Toml.arr _ => Except.error (PyErr.typeError "list indices must be integers or slices, not str")
  | Toml.int _ => Except.error (PyErr.typeError "int object is not subscriptable")
  | Toml.bool _ => Except.error (PyErr.typeError "bool object is not subscriptable")
  | Toml.null => Except.error (PyErr.typeError "NoneType object is not subscriptable")

/-- Python string rendering of an integer. -/
def pyIntStr (n : Int) : String := toString n

mutual

/-- Python `repr` of a decoded TOML value (used by `str` on containers). -/
def pyRepr : Toml → String
  | Toml.null => "None"
  | Toml.bool b => if b then "True" else "False"
  | Toml.int n => pyIntStr n
  | Toml.str s => "\x27" ++ s ++ "\x27"
  | Toml.arr xs => "[" ++ pyReprSeq xs ++ "]"
  | Toml.table kvs => "\x7b" ++ pyReprTab kvs ++ "\x7d"

/-- Comma-separated `repr` of list elements. -/
def pyReprSeq : List Toml → String
  | [] => ""
  | [x] => pyRepr x
  | x :: y :: xs => pyRepr x ++ ", " ++ pyReprSeq (y :: xs)

/-- Comma-separated `repr` of dict entries. -/
def pyReprTab : List (String × Toml) → String
  | [] => ""
  | [(k, v)] => "\x27" ++ k ++ "\x27: " ++ pyRepr v
  | (k, v) :: e :: kvs => "\x27" ++ k ++ "\x27: " ++ pyRepr v ++ ", " ++ pyReprTab (e :: kvs)

end

/-- Python `str()` of a decoded TOML value. -/
def pyStr : Toml → String
  | Toml.str s => s
  | t => pyRepr t

/-- Python subscription `t[k]` where the key is itself a decoded value
(used for `metadata.files[package[name-key]]`).  Table keys coming from
the decoder are strings, so a non-string hashable key is simply absent. -/
def pySubV (t : Toml) (k : Toml) : Except PyErr Toml :=
  match t with
  | Toml.table kvs =>
    match k with
    | Toml.str s =>
      match findEntry kvs s with
      | some v => Except.ok v
      | Option.none => Except.error (PyErr.keyError s)
    | Toml.arr _ => Except.error (PyErr.typeError "unhashable type: list")
    | Toml.table _ => Except.error (PyErr.typeError "unhashable type: dict")
    | other => Except.error (PyErr.keyError (pyStr other))
  | Toml.str _ => Except.error (PyErr.typeError "string indices must be integers")
  | Toml.arr _ => Except.error (PyErr.typeError "list indices must be integers or slices")
  | Toml.int _ => Except.error (PyErr.typeError "int object is not subscriptable")
  | Toml.bool _ => Except.error (PyErr.typeError "bool object is not subscriptable")
  | Toml.null => Except.error (PyErr.typeError "NoneType object is not subscriptable")

/-- Python `t.get(k, d)`: total on dicts, `AttributeError` otherwise. -/
def pyGet (t : Toml) (k : String) (d : Toml) : Except PyErr Toml :=
  match t with
  | Toml.table kvs => Except.ok ((findEntry kvs k).getD d)
  | Toml.str _ => Except.error (PyErr.attributeError "str object has no attribute get")
  | Toml.arr _ => Except.error (PyErr.attributeError "list object has no attribute get")
  | Toml.int _ => Except.error (PyErr.attributeError "int object has no attribute get")
  | Toml.bool _ => Except.error (PyErr.attributeError "bool object has no attribute get")
  | Toml.null => Except.error (PyErr.attributeError "NoneType object has no attribute get")

/-- Python truthiness of a decoded value. -/
def pyTruthy : Toml → Bool
  | Toml.null => false
  | Toml.bool b => b
  | Toml.int n => n != 0
  | Toml.str s => s.data != []
  | Toml.arr xs => !xs.isEmpty
  | Toml.table kvs => !kvs.isEmpty

/-- Python iteration `for x in t`: lists yield elements, strings yield
one-character strings, dicts yield their keys, the rest raise. -/
def pyIter : Toml → Except PyErr (List Toml)
  | Toml.arr xs => Except.ok xs
  | Toml.str s => Except.ok (s.data.map fun c => Toml.str (String.mk [c]))
  | Toml.table kvs => Except.ok (kvs.map fun kv => Toml.str kv.1)
  | Toml.int _ => Except.error (PyErr.typeError "int object is not iterable")
  | Toml.bool _ => Except.error (PyErr.typeError "bool object is not iterable")
  | Toml.null => Except.error (PyErr.typeError "NoneType object is not iterable")

/-- ASCII whitespace recognised by Python `str.strip`. -/
def isWs (c : Char) : Bool := c = ' ' || c = '\t' || c = '\n' || c = '\r'

/-- Strip leading and trailing whitespace (character-list form). -/
def stripWs (cs : List Char) : List Char :=
  ((cs.dropWhile isWs).reverse.dropWhile isWs).reverse

/-- ASCII decimal digit. -/
def isPyDigit (c : Char) : Bool := '0' ≤ c && c ≤ '9'

/-- After an initial digit, Python `int()` accepts digits with single
underscores strictly between digits. -/
def pyIntRest : List Char → Bool
  | [] => true
  | c :: cs =>
    if isPyDigit c then pyIntRest cs
    else if c = '_' then
      match cs with
      | [] => false
      | d :: ds => isPyDigit d && pyIntRest ds
    else false

/-- A valid unsigned digit string for Python `int()`. -/
def pyIntDigits : List Char → Bool
  | [] => false
  | c :: cs => isPyDigit c && pyIntRest cs

/-- Decimal value of a digit string (underscores skipped). -/
def digitsToNat (cs : List Char) : Nat :=
  cs.foldl (fun a c => if isPyDigit c then a * 10 + (c.toNat - 48) else a) 0

/-- Python `int(s)` on a string, base 10: strip whitespace, optional
sign, digits with underscore grouping; `ValueError` otherwise. -/
def pyInt (cs : List Char) : Except PyErr Int :=
  let t := stripWs cs
  match t with
  | [] => Except.error (PyErr.valueError "invalid literal for int with base 10")
  | c :: rest =>
    if c = '+' then
      if pyIntDigits rest then Except.ok (Int.ofNat (digitsToNat rest))
      else Except.error (PyErr.valueError "invalid literal for int with base 10")
    else if c = '-' then
      if pyIntDigits rest then Except.ok (-(Int.ofNat (digitsToNat rest)))
      else Except.error (PyErr.valueError "invalid literal for int with base 10")
    else
      if pyIntDigits t then Except.ok (Int.ofNat (digitsToNat t))
      else Except.error (PyErr.valueError "invalid literal for int with base 10")

/-- Python `s.split(sep)` for a one-character separator: splits at every
occurrence, keeping empty pieces (`"".split(sep) == [""]`). -/
def splitOnChar (sep : Char) : List Char → List (List Char)
  | [] => [[]]
  | c :: cs =>
    if c = sep then [] :: splitOnChar sep cs
    else
      match splitOnChar sep cs with
      | [] => [[c]]
      | g :: gs => (c :: g) :: gs

/-- Python tuple comparison `a >= b` on integer tuples: lexicographic,
with a longer tuple greater than its proper prefix. -/
def tupleGe : List Int → List Int → Bool
  | _, [] => true
  | [], _ :: _ => false
  | a :: as2, b :: bs =>
    if a > b then true
    else if a < b then false
    else tupleGe as2 bs

/-- Exception-propagating map over a list, mirroring a Python `for` loop
whose body can raise. -/
def emapM {α β : Type} (f : α → Except PyErr β) : List α → Except PyErr (List β)
  | [] => Except.ok []
  | x :: xs =>
    match f x with
    | Except.error e => Except.error e
    | Except.ok y =>
      match emapM f xs with
      | Except.error e => Except.error e
      | Except.ok ys => Except.ok (y :: ys)

/-- Source lines 61-64: `tuple(int(p) for p in str(md[lock-version]).split(.))`
inside `try/except Exception`, defaulting to `(0,)` on any failure.  Note
that the lookup of `lock-version` itself is inside the `try`. -/
def parseLockVersion (md : Toml) : List Int :=
  match pySub md "lock-version" with
  | Except.error _ => [0]
  | Except.ok lv =>
    match emapM pyInt (splitOnChar '.' (pyStr lv).data) with
    | Except.error _ => [0]
    | Except.ok v => v

/-- A package URL, as handed to the out-of-scope `PackageURL`
collaborator (`type=pypi`, name, version). -/
structure Purl : Type where
  ptype : String
  name : String
  version : String
deriving DecidableEq

/-- Modelled from the spec: the identifier collaborator's canonical
string serialization of a package URL ("canonical string encoding
ecosystem, name, and version"); the real formatter lives in the
out-of-scope `packageurl` library. -/
def purlToString (p : Purl) : String :=
  "pkg:" ++ p.ptype ++ "/" ++ p.name ++ "@" ++ p.version

/-- Modelled from the spec: the distribution-URL collaborator, "given
package name/version → canonical artifact-index URL string"
(`component.get_pypi_url()` in the out-of-scope model library). -/
def getPypiUrl (name version : String) : String :=
  "https://pypi.org/project/" ++ name ++ "/" ++ version ++ "/"

/-- A parsed hash value (algorithm name plus digest), the result of the
hash-parsing collaborator. -/
structure HashValue : Type where
  alg : String
  content : String
deriving DecidableEq

/-- Modelled from the spec: the hash-parsing collaborator, "given a
composite string `algorithm:digest` → a typed hash value, or fails with
a format error" (`HashType.from_composite_str` in the out-of-scope model
library, whose format failure is a `CycloneDxModelException`).  A
non-string argument fails with `AttributeError` (`.split` on a
non-string), which the source does not catch. -/
def hashFromCompositeStr (v : Toml) : Except PyErr HashValue :=
  match v with
  | Toml.str s =>
    match splitOnChar ':' s.data with
    | alg :: digest :: _ =>
      if alg.isEmpty then
        Except.error (PyErr.cdxModelError ("Unable to determine hash type from " ++ s))
      else
        Except.ok { alg := String.mk alg, content := String.mk digest }
    | _ => Except.error (PyErr.cdxModelError ("Unable to determine hash type from " ++ s))
  | _ => Except.error (PyErr.attributeError "object has no attribute split")

/-- A component key/value annotation (`cyclonedx.model.Property`). -/
structure Property : Type where
  name : String
  value : String
deriving DecidableEq

/-- Modelled from the spec: the fixed annotation key for the package
group ("key = fixed package group tag"); the literal constant lives in
`_cdx_properties.py`, which is not part of the sources under
verification. -/
def packageGroupPropName : String := "package group"

/-- An external distribution reference attached to a component.  The
out-of-scope model library stores references in a sorted set; here the
container is the insertion-ordered list of successfully built
references. -/
structure ExternalReference : Type where
  rtype : String
  url : String
  comment : String
  hashes : List HashValue
deriving DecidableEq

/-- An output component.  String-valued fields hold the `str()` form of
the decoded values the source passes to the out-of-scope `Component`
constructor; `bomRef = none` models an unset reference key (the
collaborator then assigns a default). -/
structure Component : Type where
  name : String
  version : String
  bomRef : Option String
  purl : Option Purl
  properties : List Property
  externalReferences : List ExternalReference
deriving DecidableEq

/-- Root metadata: a single component describing the project itself. -/
structure BomMetaData : Type where
  component : Component
deriving DecidableEq

/-- The outcome of a successful conversion: the ordered component list
(`self._components`) and the optional root metadata (`self._metadata`). -/
structure ParseResult : Type where
  components : List Component
  metadata : Option BomMetaData
deriving DecidableEq

/-- Messages written to the diagnostic channel.  The callback machinery
(`_debug.py`) is not part of the sources under verification; modelled
from the spec as an optional sink receiving progress/warning messages,
one constructor per `debug_message` call site of the source. -/
inductive DbgMsg : Type where
  | init
  | loading
  | detectedVersion (v : List Int)
  | processingLock
  | processingPackage (p : Toml)
  | detectingFiles
  | processingFiles (v : Toml)
  | processingFileMetadata (fm : Toml)
  | warnSuppressed (e : PyErr)

/-- Source lines 90-96, the body of the `try`: build one
`ExternalReference` for one file descriptor.  Argument evaluation order
follows the source call: the URL is collaborator-built, the comment
subscripts `file`, then `hash` is subscripted and parsed. -/
def refAttempt (name version : String) (fm : Toml) : Except PyErr ExternalReference :=
  match pySub fm "file" with
  | Except.error e => Except.error e
  | Except.ok fileV =>
    match pySub fm "hash" with
    | Except.error e => Except.error e
    | Except.ok hashV =>
      match hashFromCompositeStr hashV with
      | Except.error e => Except.error e
      | Except.ok h =>
        Except.ok
          { rtype := "distribution"
            url := getPypiUrl name version
            comment := "Distribution file: " ++ pyStr fileV
            hashes := [h] }

/-- Source lines 89-99: one iteration of the file loop.  Only
`CycloneDxModelException` is caught; the reference is then skipped. -/
def processFile (name version : String) (fm : Toml) : Except PyErr (Option ExternalReference) :=
  match refAttempt name version fm with
  | Except.ok r => Except.ok (some r)
  | Except.error (PyErr.cdxModelError _) => Except.ok Option.none
  | Except.error e => Except.error e

/-- Source lines 83-85: locate the file-descriptor array, inline on the
entry for schema generation `>= (2,)`, else by name in the
document-level `metadata.files` table (the name is subscripted again, as
in the source). -/
def resolveFiles (ver : List Int) (md : Toml) (package : Toml) : Except PyErr Toml :=
  if tupleGe ver [2] then pySub package "files"
  else
    match pySub md "files" with
    | Except.error e => Except.error e
    | Except.ok fs =>
      match pySub package "name" with
      | Except.error e => Except.error e
      | Except.ok nameV => pySubV fs nameV

/-- Source lines 69-100: one iteration of the package loop, producing
one component. -/
def processPackage (ver : List Int) (md : Toml) (usePurl : Bool) (package : Toml) :
    Except PyErr Component :=
  match pySub package "name" with
  | Except.error e => Except.error e
  | Except.ok nameV =>
    match pySub package "version" with
    | Except.error e => Except.error e
    | Except.ok versionV =>
      let purl : Purl := { ptype := "pypi", name := pyStr nameV, version := pyStr versionV }
      let bomRef : Option String := if usePurl then some (purlToString purl) else Option.none
      match pyGet package "category" Toml.null with
      | Except.error e => Except.error e
      | Except.ok categoryV =>
        let props : List Property :=
          if pyTruthy categoryV then [{ name := packageGroupPropName, value := pyStr categoryV }]
          else []
        match resolveFiles ver md package with
        | Except.error e => Except.error e
        | Except.ok filesV =>
          match pyIter filesV with
          | Except.error e => Except.error e
          | Except.ok fms =>
            match emapM (processFile (pyStr nameV) (pyStr versionV)) fms with
            | Except.error e => Except.error e
            | Except.ok opts =>
              Except.ok
                { name := pyStr nameV
                  version := pyStr versionV
                  bomRef := bomRef
                  purl := some purl
                  properties := props
                  externalReferences := opts.filterMap id }

/-- Source lines 102-108: the root-metadata step.  `none` models an
empty (falsy) `pyproject_toml_contents`; otherwise the decoded manifest
is navigated with `.get(tool, "")`, `.get(poetry, "")` and then
subscripted for `name` and `version`. -/
def processManifest : Option Toml → Except PyErr (Option BomMetaData)
  | Option.none => Except.ok Option.none
  | some t =>
    match pyGet t "tool" (Toml.str "") with
    | Except.error e => Except.error e
    | Except.ok toolV =>
      match pyGet toolV "poetry" (Toml.str "") with
      | Except.error e => Except.error e
      | Except.ok poetryV =>
        match pySub poetryV "name" with
        | Except.error e => Except.error e
        | Except.ok nameV =>
          match pySub poetryV "version" with
          | Except.error e => Except.error e
          | Except.ok versionV =>
            Except.ok (some
              { component :=
                  { name := pyStr nameV
                    version := pyStr versionV
                    bomRef := Option.none
                    purl := Option.none
                    properties := []
                    externalReferences := [] } })

/-- The whole conversion (`PoetryParser.__init__`, lines 56-108) on
already-decoded documents, with diagnostics dropped (the `quiet` sink). -/
def poetryParse (lock : Toml) (usePurl : Bool) (manifest : Option Toml) :
    Except PyErr ParseResult :=
  match pySub lock "metadata" with
  | Except.error e => Except.error e
  | Except.ok md =>
    let ver := parseLockVersion md
    match pySub lock "package" with
    | Except.error e => Except.error e
    | Except.ok pv =>
      match pyIter pv with
      | Except.error e => Except.error e
      | Except.ok pkgs =>
        match emapM (processPackage ver md usePurl) pkgs with
        | Except.error e => Except.error e
        | Except.ok comps =>
          match processManifest manifest with
          | Except.error e => Except.error e
          | Except.ok meta => Except.ok { components := comps, metadata := meta }

/-- Whether a conversion outcome is a success. -/
def isOkE {α : Type} : Except PyErr α → Bool
  | Except.ok _ => true
  | Except.error _ => false

/-- Exception-propagating map that also accumulates the diagnostic
messages emitted before the exception (Python side effects already
performed when an exception escapes the loop). -/
def dmapM {α β : Type} (f : α → Except PyErr β × List DbgMsg) :
    List α → Except PyErr (List β) × List DbgMsg
  | [] => (Except.ok [], [])
  | x :: xs =>
    match f x with
    | (Except.error e, l) => (Except.error e, l)
    | (Except.ok y, l) =>
      match dmapM f xs with
      | (Except.error e, l2) => (Except.error e, l ++ l2)
      | (Except.ok ys, l2) => (Except.ok (y :: ys), l ++ l2)

/-- `processFile` with the diagnostic sink attached: the per-descriptor
entry message, plus the warning when a malformed hash is suppressed. -/
def processFileD (name version : String) (fm : Toml) :
    Except PyErr (Option ExternalReference) × List DbgMsg :=
  match refAttempt name version fm with
  | Except.ok r => (Except.ok (some r), [DbgMsg.processingFileMetadata fm])
  | Except.error (PyErr.cdxModelError m) =>
    (Except.ok Option.none,
      [DbgMsg.processingFileMetadata fm, DbgMsg.warnSuppressed (PyErr.cdxModelError m)])
  | Except.error e => (Except.error e, [DbgMsg.processingFileMetadata fm])

/-- `processPackage` with the diagnostic sink attached. -/
def processPackageD (ver : List Int) (md : Toml) (usePurl : Bool) (package : Toml) :
    Except PyErr Component × List DbgMsg :=
  match pySub package "name" with
  | Except.error e => (Except.error e, [DbgMsg.processingPackage package])
  | Except.ok nameV =>
    match pySub package "version" with
    | Except.error e => (Except.error e, [DbgMsg.processingPackage package])
    | Except.ok versionV =>
      let purl : Purl := { ptype := "pypi", name := pyStr nameV, version := pyStr versionV }
      let bomRef : Option String := if usePurl then some (purlToString purl) else Option.none
      match pyGet package "category" Toml.null with
      | Except.error e => (Except.error e, [DbgMsg.processingPackage package])
      | Except.ok categoryV =>
        let props : List Property :=
          if pyTruthy categoryV then [{ name := packageGroupPropName, value := pyStr categoryV }]
          else []
        match resolveFiles ver md package with
        | Except.error e =>
          (Except.error e, [DbgMsg.processingPackage package, DbgMsg.detectingFiles])
        | Except.ok filesV =>
          match pyIter filesV with
          | Except.error e =>
            (Except.error e,
              [DbgMsg.processingPackage package, DbgMsg.detectingFiles,
                DbgMsg.processingFiles filesV])
          | Except.ok fms =>
            match dmapM (processFileD (pyStr nameV) (pyStr versionV)) fms with
            | (Except.error e, l) =>
              (Except.error e,
                [DbgMsg.processingPackage package, DbgMsg.detectingFiles,
                  DbgMsg.processingFiles filesV] ++ l)
            | (Except.ok opts, l) =>
              (Except.ok
                { name := pyStr nameV
                  version := pyStr versionV
                  bomRef := bomRef
                  purl := some purl
                  properties := props
                  externalReferences := opts.filterMap id },
                [DbgMsg.processingPackage package, DbgMsg.detectingFiles,
                  DbgMsg.processingFiles filesV] ++ l)

/-- The whole conversion with the diagnostic sink attached: the second
projection is everything written to the sink, the first is the same
outcome the quiet run computes. -/
def poetryParseD (lock : Toml) (usePurl : Bool) (manifest : Option Toml) :
    Except PyErr ParseResult × List DbgMsg :=
  match pySub lock "metadata" with
  | Except.error e => (Except.error e, [DbgMsg.init, DbgMsg.loading])
  | Except.ok md =>
    let ver := parseLockVersion md
    let l1 := [DbgMsg.init, DbgMsg.loading, DbgMsg.detectedVersion ver, DbgMsg.processingLock]
    match pySub lock "package" with
    | Except.error e => (Except.error e, l1)
    | Except.ok pv =>
      match pyIter pv with
      | Except.error e => (Except.error e, l1)
      | Except.ok pkgs =>
        match dmapM (processPackageD ver md usePurl) pkgs with
        | (Except.error e, l2) => (Except.error e, l1 ++ l2)
        | (Except.ok comps, l2) =>
          match processManifest manifest with
          | Except.error e => (Except.error e, l1 ++ l2)
          | Except.ok meta => (Except.ok { components := comps, metadata := meta }, l1 ++ l2)

/-- The single-package generation-2 lock document of the spec's example
scenario (`requests` 2.31.0, group `main`, one wheel file with a valid
sha256 composite hash). -/
def requestsDoc : Toml :=
  Toml.table
    [("metadata", Toml.table [("lock-version", Toml.str "2.0")]),
     ("package", Toml.arr
       [Toml.table
         [("name", Toml.str "requests"),
          ("version", Toml.str "2.31.0"),
          ("category", Toml.str "main"),
          ("files", Toml.arr
            [Toml.table
              [("file", Toml.str "requests-2.31.0-py3-none-any.whl"),
               ("hash", Toml.str "sha256:0123456789abcdef")]])]])]

/-- The single external reference the example scenario produces. -/
def requestsRef : ExternalReference :=
  { rtype := "distribution"
    url := getPypiUrl "requests" "2.31.0"
    comment := "Distribution file: requests-2.31.0-py3-none-any.whl"
    hashes := [{ alg := "sha256", content := "0123456789abcdef" }] }

/-- The single component the example scenario produces. -/
def requestsComp : Component :=
  { name := "requests"
    version := "2.31.0"
    bomRef := Option.none
    purl := some { ptype := "pypi", name := "requests", version := "2.31.0" }
    properties := [{ name := packageGroupPropName, value := "main" }]
    externalReferences := [requestsRef] }

/-- A generation-1 lock document whose single package is absent from the
`metadata.files` table. -/
def oldDocMissingFiles : Toml :=
  Toml.table
    [("metadata", Toml.table
       [("lock-version", Toml.str "1.1"), ("files", Toml.table [])]),
     ("package", Toml.arr
       [Toml.table [("name", Toml.str "foo"), ("version", Toml.str "1.0")]])]

/-- A generation-2 lock document whose single package lacks `name`. -/
def lockMissingName : Toml :=
  Toml.table
    [("metadata", Toml.table [("lock-version", Toml.str "2.0")]),
     ("package", Toml.arr [Toml.table [("version", Toml.str "1.0")]])]

/-- A well-formed generation-2 lock document with no packages. -/
def emptyLock : Toml :=
  Toml.table
    [("metadata", Toml.table [("lock-version", Toml.str "2.0")]),
     ("package", Toml.arr [])]

/-- A manifest whose `tool.poetry` table lacks `name`. -/
def manifestMissingName : Toml :=
  Toml.table [("tool", Toml.table [("poetry", Toml.table [("version", Toml.str "1.0")])])]

/-- The successful outcome of the spec's example scenario. -/
def requestsResult : ParseResult :=
  { components := [requestsComp], metadata := Option.none }
/-- A generation-2 lock document whose single package lacks `files`. -/
def newDocNoFiles : Toml :=
  Toml.table
    [("metadata", Toml.table [("lock-version", Toml.str "2.0")]),
     ("package", Toml.arr
       [Toml.table [("name", Toml.str "bar"), ("version", Toml.str "1.0")]])]
/-- A generation-1 package entry and its generation-2 counterpart: the
same table with the entry's file-descriptor array — the one stored under
the package's name in the document-level table — inlined under `files`. -/
def GenEquivPkg (fs : List (String × Toml)) (p q : Toml) : Prop :=
  ∃ (kvs : List (String × Toml)) (n : String) (files : Toml),
    p = Toml.table kvs ∧
    q = Toml.table (kvs ++ [("files", files)]) ∧
    findEntry kvs "files" = Option.none ∧
    findEntry kvs "name" = some (Toml.str n) ∧
    findEntry fs n = some files
/-- The shared file-descriptor array of the C4 witness pair. -/
def filesA : Toml :=
  Toml.arr [Toml.table [("file", Toml.str "pkga-1.0.tar.gz"), ("hash", Toml.str "sha256:aa")]]
/-- Generation-1 form of the C4 witness document. -/
def gen1Doc : Toml :=
  Toml.table
    [("metadata", Toml.table
       [("lock-version", Toml.str "1.1"), ("files", Toml.table [("pkga", filesA)])]),
     ("package", Toml.arr
       [Toml.table [("name", Toml.str "pkga"), ("version", Toml.str "1.0")]])]
/-- Generation-2 form of the C4 witness document. -/
def gen2Doc : Toml :=
  Toml.table
    [("metadata", Toml.table [("lock-version", Toml.str "2.0")]),
     ("package", Toml.arr
       [Toml.table
         [("name", Toml.str "pkga"), ("version", Toml.str "1.0"), ("files", filesA)]])]
/-- A well-formed file descriptor (tarball, valid sha256 hash). -/
def c2good1 : Toml :=
  Toml.table [("file", Toml.str "pkg-1.0.tar.gz"), ("hash", Toml.str "sha256:aa")]
/-- A file descriptor with a syntactically invalid composite hash. -/
def c2bad : Toml :=
  Toml.table [("file", Toml.str "pkg-1.0.whl"), ("hash", Toml.str "not-a-valid-hash")]
/-- A second well-formed file descriptor (zip, valid md5 hash). -/
def c2good2 : Toml :=
  Toml.table [("file", Toml.str "pkg-1.0.zip"), ("hash", Toml.str "md5:bb")]

theorem findEntry_append (kvs tl : List (String × Toml)) (k : String) :
    findEntry (kvs ++ tl) k =
      match findEntry kvs k with
      | some v => some v
      | Option.none => findEntry tl k := by
  induction kvs with
  | nil => rfl
  | cons e rest ih =>
    cases e with
    | mk k2 v2 =>
      by_cases h : k2 = k
      · simp [findEntry, h]
      · simp [findEntry, h, ih]

theorem emapM_ok_length {α β : Type} (f : α → Except PyErr β) :
    ∀ (l : List α) (ys : List β), emapM f l = Except.ok ys → ys.length = l.length := by
  intro l
  induction l with
  | nil =>
    intro ys h
    simp only [emapM] at h
    injection h with h2
    subst h2
    rfl
  | cons x xs ih =>
    intro ys h
    simp only [emapM] at h
    split at h
    · simp at h
    · split at h
      · simp at h
      · rename_i ys2 heq2
        injection h with h2
        subst h2
        simp [ih ys2 heq2]

theorem emapM_ok_get {α β : Type} (f : α → Except PyErr β) :
    ∀ (l : List α) (ys : List β), emapM f l = Except.ok ys →
      ∀ (i : Nat) (hi : i < l.length) (hy : i < ys.length),
        f (l.get ⟨i, hi⟩) = Except.ok (ys.get ⟨i, hy⟩) := by
  intro l
  induction l with
  | nil =>
    intro ys h i hi hy
    exact absurd hi (by simp)
  | cons x xs ih =>
    intro ys h i hi hy
    simp only [emapM] at h
    split at h
    · simp at h
    · rename_i y heq
      split at h
      · simp at h
      · rename_i ys2 heq2
        injection h with h2
        subst h2
        cases i with
        | zero => simpa using heq
        | succ j =>
          exact ih ys2 heq2 j (Nat.lt_of_succ_lt_succ hi) (Nat.lt_of_succ_lt_succ hy)

theorem emapM_ok_of_mem {α β : Type} (f : α → Except PyErr β) :
    ∀ (l : List α) (ys : List β), emapM f l = Except.ok ys →
      ∀ x, x ∈ l → ∃ y, f x = Except.ok y := by
  intro l
  induction l with
  | nil =>
    intro ys h x hx
    cases hx
  | cons a as ih =>
    intro ys h x hx
    simp only [emapM] at h
    split at h
    · simp at h
    · rename_i y heq
      split at h
      · simp at h
      · rename_i ys2 heq2
        cases hx with
        | head => exact ⟨y, heq⟩
        | tail _ hmem => exact ih ys2 heq2 x hmem

theorem emapM_ok_of_forall {α β : Type} (f : α → Except PyErr β) :
    ∀ (l : List α), (∀ x, x ∈ l → ∃ y, f x = Except.ok y) →
      ∃ ys, emapM f l = Except.ok ys := by
  intro l
  induction l with
  | nil =>
    intro _
    exact ⟨[], rfl⟩
  | cons a as ih =>
    intro h
    obtain ⟨y, hy⟩ := h a (List.mem_cons_self a as)
    obtain ⟨ys, hys⟩ := ih (fun x hx => h x (List.mem_cons_of_mem a hx))
    exact ⟨y :: ys, by simp only [emapM, hy, hys]⟩

theorem emapM_append {α β : Type} (f : α → Except PyErr β) :
    ∀ (l1 l2 : List α) (ys zs : List β),
      emapM f l1 = Except.ok ys → emapM f l2 = Except.ok zs →
      emapM f (l1 ++ l2) = Except.ok (ys ++ zs) := by
  intro l1
  induction l1 with
  | nil =>
    intro l2 ys zs h1 h2
    simp only [emapM] at h1
    injection h1 with h
    subst h
    simpa using h2
  | cons a as ih =>
    intro l2 ys zs h1 h2
    simp only [emapM] at h1
    split at h1
    · simp at h1
    · rename_i y heq
      split at h1
      · simp at h1
      · rename_i ys2 heq2
        injection h1 with h
        subst h
        have h3 := ih l2 ys2 zs heq2 h2
        show emapM f ((a :: as) ++ l2) = _
        rw [List.cons_append]
        simp only [emapM, heq, h3, List.cons_append]

theorem emapM_congr {α α2 β : Type} (f : α → Except PyErr β) (g : α2 → Except PyErr β)
    (R : α → α2 → Prop) (hfg : ∀ a b, R a b → f a = g b) :
    ∀ (l1 : List α) (l2 : List α2), List.Forall₂ R l1 l2 → emapM f l1 = emapM g l2 := by
  intro l1 l2 hrel
  induction hrel with
  | nil => rfl
  | @cons a b as bs hab _ ih =>
    simp only [emapM]
    rw [hfg a b hab, ih]

theorem filterMap_id_map_some {β : Type} :
    ∀ (l : List β), List.filterMap id (l.map some) = l := by
  intro l
  induction l with
  | nil => rfl
  | cons x xs ih => simp [List.filterMap_cons, ih]

theorem processFileD_fst (name version : String) (fm : Toml) :
    (processFileD name version fm).fst = processFile name version fm := by
  cases h : refAttempt name version fm with
  | ok r => simp [processFileD, processFile, h]
  | error e => cases e <;> simp [processFileD, processFile, h]

theorem dmapM_fst {α β : Type} (f : α → Except PyErr β × List DbgMsg) (g : α → Except PyErr β)
    (hfg : ∀ x, (f x).fst = g x) :
    ∀ (l : List α), (dmapM f l).fst = emapM g l := by
  intro l
  induction l with
  | nil => rfl
  | cons x xs ih =>
    have hgx : g x = (f x).fst := (hfg x).symm
    cases hf : f x with
    | mk r lg =>
      rw [hf] at hgx
      cases r with
      | error e => simp [dmapM, emapM, hf, hgx]
      | ok y =>
        cases hd : dmapM f xs with
        | mk r2 lg2 =>
          rw [hd] at ih
          cases r2 with
          | error e => simp [dmapM, emapM, hf, hd, hgx, ← ih]
          | ok ys => simp [dmapM, emapM, hf, hd, hgx, ← ih]

theorem dmapM_ok_append {α β : Type} (f : α → Except PyErr β × List DbgMsg) :
    ∀ (l1 l2 : List α) (ys : List β) (lg : List DbgMsg),
      dmapM f l1 = (Except.ok ys, lg) →
      dmapM f (l1 ++ l2) =
        (match dmapM f l2 with
          | (Except.ok zs, lg2) => (Except.ok (ys ++ zs), lg ++ lg2)
          | (Except.error e, lg2) => (Except.error e, lg ++ lg2)) := by
  intro l1
  induction l1 with
  | nil =>
    intro l2 ys lg h
    simp only [dmapM, Prod.mk.injEq] at h
    obtain ⟨h1, h2⟩ := h
    injection h1 with h1
    subst h1
    subst h2
    cases hd : dmapM f l2 with
    | mk r2 lg2 =>
      cases r2 <;> simp [hd]
  | cons a as ih =>
    intro l2 ys lg h
    simp only [dmapM] at h
    split at h
    · simp at h
    · rename_i y lga heq
      split at h
      · simp at h
      · rename_i ys2 lg2 heq2
        simp only [Prod.mk.injEq] at h
        obtain ⟨h1, h2⟩ := h
        injection h1 with h1
        subst h1
        subst h2
        have h3 := ih l2 ys2 lg2 heq2
        cases hd : dmapM f l2 with
        | mk r3 lg3 =>
          rw [hd] at h3
          cases r3 with
          | error e => simp [dmapM, heq, h3, hd]
          | ok zs => simp [dmapM, heq, h3, hd]

theorem dmapM_processFileD_ok (n v : String) :
    ∀ (l : List Toml) (rs : List ExternalReference),
      emapM (refAttempt n v) l = Except.ok rs →
      dmapM (processFileD n v) l
        = (Except.ok (rs.map some), l.map DbgMsg.processingFileMetadata) := by
  intro l
  induction l with
  | nil =>
    intro rs h
    simp only [emapM] at h
    injection h with h
    subst h
    rfl
  | cons fm fms ih =>
    intro rs h
    simp only [emapM] at h
    split at h
    · simp at h
    · rename_i r heq
      split at h
      · simp at h
      · rename_i rs2 heq2
        injection h with h
        subst h
        simp [dmapM, processFileD, heq, ih rs2 heq2]

theorem processPackageD_fst (ver : List Int) (md : Toml) (u : Bool) (package : Toml) :
    (processPackageD ver md u package).fst = processPackage ver md u package := by
  cases h1 : pySub package "name" with
  | error e => simp [processPackageD, processPackage, h1]
  | ok nameV =>
    cases h2 : pySub package "version" with
    | error e => simp [processPackageD, processPackage, h1, h2]
    | ok versionV =>
      cases h3 : pyGet package "category" Toml.null with
      | error e => simp [processPackageD, processPackage, h1, h2, h3]
      | ok categoryV =>
        cases h4 : resolveFiles ver md package with
        | error e => simp [processPackageD, processPackage, h1, h2, h3, h4]
        | ok filesV =>
          cases h5 : pyIter filesV with
          | error e => simp [processPackageD, processPackage, h1, h2, h3, h4, h5]
          | ok fms =>
            have hd := dmapM_fst (processFileD (pyStr nameV) (pyStr versionV))
              (processFile (pyStr nameV) (pyStr versionV))
              (fun fm => processFileD_fst (pyStr nameV) (pyStr versionV) fm) fms
            cases h6 : dmapM (processFileD (pyStr nameV) (pyStr versionV)) fms with
            | mk r lg =>
              rw [h6] at hd
              cases r with
              | error e =>
                simp [processPackageD, processPackage, h1, h2, h3, h4, h5, h6, ← hd]
              | ok opts =>
                simp [processPackageD, processPackage, h1, h2, h3, h4, h5, h6, ← hd]

theorem processPackage_err_name (ver : List Int) (md : Toml) (u : Bool)
    (pkvs : List (String × Toml)) (h : findEntry pkvs "name" = Option.none) :
    processPackage ver md u (Toml.table pkvs) = Except.error (PyErr.keyError "name") := by
  simp [processPackage, pySub, h]

theorem processPackage_err_version (ver : List Int) (md : Toml) (u : Bool)
    (pkvs : List (String × Toml)) (nameV : Toml)
    (hn : findEntry pkvs "name" = some nameV)
    (h : findEntry pkvs "version" = Option.none) :
    processPackage ver md u (Toml.table pkvs) = Except.error (PyErr.keyError "version") := by
  simp [processPackage, pySub, hn, h]

theorem processPackage_err_oldFiles (ver : List Int) (mdkvs pkvs fs : List (String × Toml))
    (u : Bool) (n : String) (vv : Toml)
    (hver : tupleGe ver [2] = false)
    (hn : findEntry pkvs "name" = some (Toml.str n))
    (hv : findEntry pkvs "version" = some vv)
    (hfs : findEntry mdkvs "files" = some (Toml.table fs))
    (habs : findEntry fs n = Option.none) :
    processPackage ver (Toml.table mdkvs) u (Toml.table pkvs)
      = Except.error (PyErr.keyError n) := by
  simp [processPackage, pySub, hn, hv, pyGet, resolveFiles, hver, hfs, pySubV, habs]

theorem processPackage_err_nofiles (ver : List Int) (md : Toml) (u : Bool)
    (pkvs : List (String × Toml)) (nameV vv : Toml)
    (hver : tupleGe ver [2] = true)
    (hn : findEntry pkvs "name" = some nameV)
    (hv : findEntry pkvs "version" = some vv)
    (hnf : findEntry pkvs "files" = Option.none) :
    processPackage ver md u (Toml.table pkvs) = Except.error (PyErr.keyError "files") := by
  simp [processPackage, pySub, hn, hv, pyGet, resolveFiles, hver, hnf]

theorem poetryParse_ok_parts (lock : Toml) (u : Bool) (m : Option Toml) (r : ParseResult)
    (h : poetryParse lock u m = Except.ok r) :
    ∃ md pv pkgs comps,
      pySub lock "metadata" = Except.ok md ∧
      pySub lock "package" = Except.ok pv ∧
      pyIter pv = Except.ok pkgs ∧
      emapM (processPackage (parseLockVersion md) md u) pkgs = Except.ok comps ∧
      processManifest m = Except.ok r.metadata ∧
      r.components = comps := by
  simp only [poetryParse] at h
  split at h
  · simp at h
  · rename_i md hmd
    split at h
    · simp at h
    · rename_i pv hpv
      split at h
      · simp at h
      · rename_i pkgs hpkgs
        split at h
        · simp at h
        · rename_i comps hcomps
          split at h
          · simp at h
          · rename_i meta hmeta
            injection h with h
            subst h
            exact ⟨md, pv, pkgs, comps, hmd, hpv, hpkgs, hcomps, hmeta, rfl⟩

theorem poetryParseD_fst (lock : Toml) (u : Bool) (manifest : Option Toml) :
    (poetryParseD lock u manifest).fst = poetryParse lock u manifest := by
  cases h1 : pySub lock "metadata" with
  | error e => simp [poetryParseD, poetryParse, h1]
  | ok md =>
    cases h2 : pySub lock "package" with
    | error e => simp [poetryParseD, poetryParse, h1, h2]
    | ok pv =>
      cases h3 : pyIter pv with
      | error e => simp [poetryParseD, poetryParse, h1, h2, h3]
      | ok pkgs =>
        have hd := dmapM_fst (processPackageD (parseLockVersion md) md u)
          (processPackage (parseLockVersion md) md u)
          (fun p => processPackageD_fst (parseLockVersion md) md u p) pkgs
        cases h4 : dmapM (processPackageD (parseLockVersion md) md u) pkgs with
        | mk r lg =>
          rw [h4] at hd
          cases r with
          | error e => simp [poetryParseD, poetryParse, h1, h2, h3, h4, ← hd]
          | ok comps =>
            cases h5 : processManifest manifest with
            | error e => simp [poetryParseD, poetryParse, h1, h2, h3, h4, h5, ← hd]
            | ok meta => simp [poetryParseD, poetryParse, h1, h2, h3, h4, h5, ← hd]

/-- C1: for every lock document on which the conversion succeeds, the
number of output components equals the number of package entries, and
the i-th component is the one built (by `processPackage`) from the i-th
package entry — output order equals input entry order, with no
deduplication. -/
theorem claim_C1 (lock : Toml) (u : Bool) (m : Option Toml) (r : ParseResult)
    (h : poetryParse lock u m = Except.ok r) :
    ∃ md pv pkgs,
      pySub lock "metadata" = Except.ok md ∧
      pySub lock "package" = Except.ok pv ∧
      pyIter pv = Except.ok pkgs ∧
      r.components.length = pkgs.length ∧
      ∀ (i : Nat) (hi : i < pkgs.length) (hc : i < r.components.length),
        processPackage (parseLockVersion md) md u (pkgs.get ⟨i, hi⟩)
          = Except.ok (r.components.get ⟨i, hc⟩) := by
  obtain ⟨md, pv, pkgs, comps, h1, h2, h3, h4, _, h6⟩ := poetryParse_ok_parts lock u m r h
  subst h6
  exact ⟨md, pv, pkgs, h1, h2, h3, emapM_ok_length _ pkgs _ h4,
    fun i hi hc => emapM_ok_get _ pkgs _ h4 i hi hc⟩

/-- Witness for C1 at the example scenario document. -/
theorem claim_C1_witness :
    ∃ md pv pkgs,
      pySub requestsDoc "metadata" = Except.ok md ∧
      pySub requestsDoc "package" = Except.ok pv ∧
      pyIter pv = Except.ok pkgs ∧
      requestsResult.components.length = pkgs.length ∧
      ∀ (i : Nat) (hi : i < pkgs.length) (hc : i < requestsResult.components.length),
        processPackage (parseLockVersion md) md false (pkgs.get ⟨i, hi⟩)
          = Except.ok (requestsResult.components.get ⟨i, hc⟩) :=
  claim_C1 requestsDoc false Option.none requestsResult rfl

/-- C5: the schema generation is parsed from `metadata.lock-version` as
a tuple of dot-separated integers — "1.1" parses to (1,1) — and on any
parse failure (non-numeric string, or missing field) the generation
defaults to (0,); `parseLockVersion` is total, so the read never fails
on this field. -/
theorem claim_C5 :
    (∀ (kvs : List (String × Toml)) (s : String) (v : List Int),
        findEntry kvs "lock-version" = some (Toml.str s) →
        emapM pyInt (splitOnChar '.' s.data) = Except.ok v →
        parseLockVersion (Toml.table kvs) = v)
    ∧ (∀ (kvs : List (String × Toml)) (s : String) (e : PyErr),
        findEntry kvs "lock-version" = some (Toml.str s) →
        emapM pyInt (splitOnChar '.' s.data) = Except.error e →
        parseLockVersion (Toml.table kvs) = [0])
    ∧ (∀ (kvs : List (String × Toml)),
        findEntry kvs "lock-version" = Option.none →
        parseLockVersion (Toml.table kvs) = [0])
    ∧ parseLockVersion (Toml.table [("lock-version", Toml.str "1.1")]) = [1, 1]
    ∧ parseLockVersion (Toml.table [("lock-version", Toml.str "garbage")]) = [0] := by
  refine ⟨?_, ?_, ?_, rfl, rfl⟩
  · intro kvs s v h1 h2
    simp [parseLockVersion, pySub, h1, pyStr, h2]
  · intro kvs s e h1 h2
    simp [parseLockVersion, pySub, h1, pyStr, h2]
  · intro kvs h1
    simp [parseLockVersion, pySub, h1]

/-- Witness for C5: a further concrete instance of the general parsing
conjunct. -/
theorem claim_C5_witness :
    parseLockVersion (Toml.table [("lock-version", Toml.str "2.0")]) = [2, 0] :=
  claim_C5.1 [("lock-version", Toml.str "2.0")] "2.0" [2, 0] rfl rfl

/-- C6: the example scenario — a single `requests` 2.31.0 package of
group `main` with one wheel file carrying a valid sha256 composite hash
and no manifest supplied — produces exactly one component named
`requests`, version 2.31.0, with the fixed package-group annotation set
to `main`, one distribution reference whose comment names the file, and
no root metadata. -/
theorem claim_C6 :
    poetryParse requestsDoc false Option.none = Except.ok requestsResult := rfl

/-- C9: running the conversion with the diagnostic sink attached and
running it with messages dropped produce the same outcome — identical
component lists and identical root metadata on success, identical error
otherwise: the diagnostic channel never alters control flow or any
output value. -/
theorem claim_C9 (lock : Toml) (usePurl : Bool) (manifest : Option Toml) :
    (poetryParseD lock usePurl manifest).fst = poetryParse lock usePurl manifest :=
  poetryParseD_fst lock usePurl manifest

/-- C7: a package entry (a table in the `package` array) lacking `name`
or `version` makes the whole conversion fail: no (partial) component
list is ever returned. -/
theorem claim_C7 (usePurl : Bool) (manifest : Option Toml) (lkvs : List (String × Toml))
    (pkgs : List Toml) (pkvs : List (String × Toml))
    (hpk : findEntry lkvs "package" = some (Toml.arr pkgs))
    (hmem : Toml.table pkvs ∈ pkgs)
    (hmiss : findEntry pkvs "name" = Option.none ∨ findEntry pkvs "version" = Option.none) :
    isOkE (poetryParse (Toml.table lkvs) usePurl manifest) = false := by
  cases hres : poetryParse (Toml.table lkvs) usePurl manifest with
  | error e => rfl
  | ok r =>
    exfalso
    obtain ⟨md, pv, pkgs2, comps, h1, h2, h3, h4, _, _⟩ :=
      poetryParse_ok_parts _ _ _ _ hres
    have h2b : pySub (Toml.table lkvs) "package" = Except.ok (Toml.arr pkgs) := by
      simp [pySub, hpk]
    rw [h2b] at h2
    injection h2 with h2
    subst h2
    simp only [pyIter] at h3
    injection h3 with h3
    subst h3
    obtain ⟨c, hc⟩ := emapM_ok_of_mem _ pkgs comps h4 _ hmem
    cases hmiss with
    | inl hn =>
      rw [processPackage_err_name _ _ _ _ hn] at hc
      simp at hc
    | inr hv =>
      cases hn : findEntry pkvs "name" with
      | none =>
        rw [processPackage_err_name _ _ _ _ hn] at hc
        simp at hc
      | some nameV =>
        rw [processPackage_err_version _ _ _ _ _ hn hv] at hc
        simp at hc

/-- Witness for C7 at a concrete document whose only package lacks
`name`. -/
theorem claim_C7_witness :
    isOkE (poetryParse lockMissingName false Option.none) = false :=
  claim_C7 false Option.none
    [("metadata", Toml.table [("lock-version", Toml.str "2.0")]),
     ("package", Toml.arr [Toml.table [("version", Toml.str "1.0")]])]
    [Toml.table [("version", Toml.str "1.0")]]
    [("version", Toml.str "1.0")]
    rfl (List.Mem.head _) (Or.inl rfl)

/-- C10: in a document of schema generation at least (2,), a package
entry lacking the `files` key makes the whole conversion fail — no
soft-skip applies to it, unlike the version field and malformed
hashes. -/
theorem claim_C10 (usePurl : Bool) (manifest : Option Toml) (lkvs : List (String × Toml))
    (md : Toml) (pkgs : List Toml) (pkvs : List (String × Toml))
    (hmd : findEntry lkvs "metadata" = some md)
    (hpk : findEntry lkvs "package" = some (Toml.arr pkgs))
    (hver : tupleGe (parseLockVersion md) [2] = true)
    (hmem : Toml.table pkvs ∈ pkgs)
    (hnf : findEntry pkvs "files" = Option.none) :
    isOkE (poetryParse (Toml.table lkvs) usePurl manifest) = false := by
  cases hres : poetryParse (Toml.table lkvs) usePurl manifest with
  | error e => rfl
  | ok r =>
    exfalso
    obtain ⟨md2, pv, pkgs2, comps, h1, h2, h3, h4, _, _⟩ :=
      poetryParse_ok_parts _ _ _ _ hres
    have h1b : pySub (Toml.table lkvs) "metadata" = Except.ok md := by
      simp [pySub, hmd]
    rw [h1b] at h1
    injection h1 with h1
    subst h1
    have h2b : pySub (Toml.table lkvs) "package" = Except.ok (Toml.arr pkgs) := by
      simp [pySub, hpk]
    rw [h2b] at h2
    injection h2 with h2
    subst h2
    simp only [pyIter] at h3
    injection h3 with h3
    subst h3
    obtain ⟨c, hc⟩ := emapM_ok_of_mem _ pkgs comps h4 _ hmem
    cases hn : findEntry pkvs "name" with
    | none =>
      rw [processPackage_err_name _ _ _ _ hn] at hc
      simp at hc
    | some nameV =>
      cases hv : findEntry pkvs "version" with
      | none =>
        rw [processPackage_err_version _ _ _ _ _ hn hv] at hc
        simp at hc
      | some vv =>
        rw [processPackage_err_nofiles _ _ _ _ _ _ hver hn hv hnf] at hc
        simp at hc

/-- Witness for C10 at a concrete generation-2 document. -/
theorem claim_C10_witness :
    isOkE (poetryParse newDocNoFiles false Option.none) = false :=
  claim_C10 false Option.none
    [("metadata", Toml.table [("lock-version", Toml.str "2.0")]),
     ("package", Toml.arr
       [Toml.table [("name", Toml.str "bar"), ("version", Toml.str "1.0")]])]
    (Toml.table [("lock-version", Toml.str "2.0")])
    [Toml.table [("name", Toml.str "bar"), ("version", Toml.str "1.0")]]
    [("name", Toml.str "bar"), ("version", Toml.str "1.0")]
    rfl rfl rfl (List.Mem.head _) rfl

/-- Counterexample to C3 as stated: in a generation-(1,1) document whose
single package `foo` is absent from `metadata.files`, the conversion
does not yield a component with zero references — it fails with a
key-lookup error on the package name. -/
theorem claim_C3_counterexample :
    poetryParse oldDocMissingFiles false Option.none
      = Except.error (PyErr.keyError "foo") := rfl

/-- C3 (amended): for a lock document of schema generation below (2,), a
package entry whose name is absent from the document-level
`metadata.files` table causes the whole conversion to fail with a
key-lookup error — it does not yield a component with zero file
descriptors. -/
theorem claim_C3 (usePurl : Bool) (manifest : Option Toml)
    (lkvs mdkvs fs pkvs : List (String × Toml)) (pkgs : List Toml) (n : String)
    (hmd : findEntry lkvs "metadata" = some (Toml.table mdkvs))
    (hpk : findEntry lkvs "package" = some (Toml.arr pkgs))
    (hver : tupleGe (parseLockVersion (Toml.table mdkvs)) [2] = false)
    (hfs : findEntry mdkvs "files" = some (Toml.table fs))
    (hmem : Toml.table pkvs ∈ pkgs)
    (hname : findEntry pkvs "name" = some (Toml.str n))
    (habs : findEntry fs n = Option.none) :
    isOkE (poetryParse (Toml.table lkvs) usePurl manifest) = false := by
  cases hres : poetryParse (Toml.table lkvs) usePurl manifest with
  | error e => rfl
  | ok r =>
    exfalso
    obtain ⟨md2, pv, pkgs2, comps, h1, h2, h3, h4, _, _⟩ :=
      poetryParse_ok_parts _ _ _ _ hres
    have h1b : pySub (Toml.table lkvs) "metadata" = Except.ok (Toml.table mdkvs) := by
      simp [pySub, hmd]
    rw [h1b] at h1
    injection h1 with h1
    subst h1
    have h2b : pySub (Toml.table lkvs) "package" = Except.ok (Toml.arr pkgs) := by
      simp [pySub, hpk]
    rw [h2b] at h2
    injection h2 with h2
    subst h2
    simp only [pyIter] at h3
    injection h3 with h3
    subst h3
    obtain ⟨c, hc⟩ := emapM_ok_of_mem _ pkgs comps h4 _ hmem
    cases hv : findEntry pkvs "version" with
    | none =>
      rw [processPackage_err_version _ _ _ _ _ hname hv] at hc
      simp at hc
    | some vv =>
      rw [processPackage_err_oldFiles _ _ _ _ _ _ _ hver hname hv hfs habs] at hc
      simp at hc

/-- Witness for the amended C3 at the counterexample document. -/
theorem claim_C3_witness :
    isOkE (poetryParse oldDocMissingFiles false Option.none) = false :=
  claim_C3 false Option.none
    [("metadata", Toml.table [("lock-version", Toml.str "1.1"), ("files", Toml.table [])]),
     ("package", Toml.arr
       [Toml.table [("name", Toml.str "foo"), ("version", Toml.str "1.0")]])]
    [("lock-version", Toml.str "1.1"), ("files", Toml.table [])]
    []
    [("name", Toml.str "foo"), ("version", Toml.str "1.0")]
    [Toml.table [("name", Toml.str "foo"), ("version", Toml.str "1.0")]]
    "foo"
    rfl rfl rfl rfl (List.Mem.head _) rfl rfl

/-- Counterexample to C8 as stated: a lock document whose package lacks
`name` and a well-formed lock paired with a manifest whose
`tool.poetry` lacks `name` fail with the *same* error value, so the
manifest failure is not surfaced distinctly from lock-file errors. -/
theorem claim_C8_counterexample :
    poetryParse lockMissingName false Option.none = Except.error (PyErr.keyError "name")
    ∧ poetryParse emptyLock false (some manifestMissingName)
        = Except.error (PyErr.keyError "name") :=
  ⟨rfl, rfl⟩

/-- C8 (amended): if a manifest is supplied and its `tool.poetry.name`
or `tool.poetry.version` is absent, the conversion fails — no root
metadata and no success result — though the failure is a generic
key-lookup error not necessarily distinguishable from lock-file errors;
if no manifest is supplied, no root metadata is produced and this is
not an error. -/
theorem claim_C8 :
    (∀ (t : Toml) (e : PyErr), processManifest (some t) = Except.error e →
        ∀ (lock : Toml) (u : Bool), isOkE (poetryParse lock u (some t)) = false)
    ∧ (∀ (mkvs tkvs pkvs : List (String × Toml)),
        findEntry mkvs "tool" = some (Toml.table tkvs) →
        findEntry tkvs "poetry" = some (Toml.table pkvs) →
        findEntry pkvs "name" = Option.none →
        processManifest (some (Toml.table mkvs)) = Except.error (PyErr.keyError "name"))
    ∧ (∀ (mkvs tkvs pkvs : List (String × Toml)) (nv : Toml),
        findEntry mkvs "tool" = some (Toml.table tkvs) →
        findEntry tkvs "poetry" = some (Toml.table pkvs) →
        findEntry pkvs "name" = some nv →
        findEntry pkvs "version" = Option.none →
        processManifest (some (Toml.table mkvs)) = Except.error (PyErr.keyError "version"))
    ∧ (∀ (lock : Toml) (u : Bool) (r : ParseResult),
        poetryParse lock u Option.none = Except.ok r → r.metadata = Option.none) := by
  refine ⟨?_, ?_, ?_, ?_⟩
  · intro t e he lock u1
    cases hres : poetryParse lock u1 (some t) with
    | error e2 => rfl
    | ok r =>
      exfalso
      obtain ⟨_, _, _, _, _, _, _, _, h5, _⟩ := poetryParse_ok_parts _ _ _ _ hres
      rw [he] at h5
      simp at h5
  · intro mkvs tkvs pkvs h1 h2 h3
    simp [processManifest, pyGet, h1, h2, pySub, h3]
  · intro mkvs tkvs pkvs nv h1 h2 h3 h4
    simp [processManifest, pyGet, h1, h2, pySub, h3, h4]
  · intro lock u1 r h
    obtain ⟨_, _, _, _, _, _, _, _, h5, _⟩ := poetryParse_ok_parts _ _ _ _ h
    simp only [processManifest] at h5
    injection h5 with h5
    exact h5.symm

/-- Witness for the amended C8: the malformed-manifest run fails. -/
theorem claim_C8_witness :
    isOkE (poetryParse emptyLock false (some manifestMissingName)) = false :=
  claim_C8.1 manifestMissingName (PyErr.keyError "name") rfl emptyLock false

theorem processPackage_genEquiv (u : Bool) (v1 v2 : List Int)
    (mdkvs fs : List (String × Toml)) (md2 : Toml)
    (hv1 : tupleGe v1 [2] = false) (hv2 : tupleGe v2 [2] = true)
    (hfs : findEntry mdkvs "files" = some (Toml.table fs))
    (p q : Toml) (hpq : GenEquivPkg fs p q) :
    processPackage v1 (Toml.table mdkvs) u p = processPackage v2 md2 u q := by
  obtain ⟨kvs, n, files, hp, hq, hnof, hname, hlook⟩ := hpq
  subst hp
  subst hq
  have hqname : findEntry (kvs ++ [("files", files)]) "name" = some (Toml.str n) := by
    rw [findEntry_append, hname]
  have hqfiles : findEntry (kvs ++ [("files", files)]) "files" = some files := by
    rw [findEntry_append, hnof]
    simp [findEntry]
  have hqver : findEntry (kvs ++ [("files", files)]) "version" = findEntry kvs "version" := by
    rw [findEntry_append]
    cases hv : findEntry kvs "version" with
    | none => simp [findEntry]
    | some vv => rfl
  have hqcat : findEntry (kvs ++ [("files", files)]) "category" = findEntry kvs "category" := by
    rw [findEntry_append]
    cases hv : findEntry kvs "category" with
    | none => simp [findEntry]
    | some vv => rfl
  cases hv : findEntry kvs "version" with
  | none =>
    simp [processPackage, pySub, hname, hqname, hqver, hv]
  | some vv =>
    have hrf1 : resolveFiles v1 (Toml.table mdkvs) (Toml.table kvs) = Except.ok files := by
      simp [resolveFiles, hv1, pySub, hfs, hname, pySubV, hlook]
    have hrf2 : resolveFiles v2 md2 (Toml.table (kvs ++ [("files", files)]))
        = Except.ok files := by
      simp [resolveFiles, hv2, pySub, hqfiles]
    simp [processPackage, pySub, hname, hqname, hqver, hqcat, hv, pyGet, hrf1, hrf2]

/-- C4: a generation-1 document (file metadata keyed by package name in
`metadata.files`) and the equivalent generation-2 document (the same
file metadata inline on each package entry) produce identical results —
same names, versions, identifiers, annotations and external
references. -/
theorem claim_C4 (u : Bool) (manifest : Option Toml) (mdkvs fs : List (String × Toml))
    (md2 : Toml) (pkgs1 pkgs2 : List Toml)
    (hv1 : tupleGe (parseLockVersion (Toml.table mdkvs)) [2] = false)
    (hv2 : tupleGe (parseLockVersion md2) [2] = true)
    (hfs : findEntry mdkvs "files" = some (Toml.table fs))
    (hrel : List.Forall₂ (GenEquivPkg fs) pkgs1 pkgs2) :
    poetryParse (Toml.table [("metadata", Toml.table mdkvs), ("package", Toml.arr pkgs1)])
        u manifest
      = poetryParse (Toml.table [("metadata", md2), ("package", Toml.arr pkgs2)]) u manifest := by
  have hcong := emapM_congr
    (processPackage (parseLockVersion (Toml.table mdkvs)) (Toml.table mdkvs) u)
    (processPackage (parseLockVersion md2) md2 u) (GenEquivPkg fs)
    (fun p q hpq => processPackage_genEquiv u _ _ mdkvs fs md2 hv1 hv2 hfs p q hpq)
    pkgs1 pkgs2 hrel
  have e1 : pySub (Toml.table [("metadata", Toml.table mdkvs), ("package", Toml.arr pkgs1)])
      "metadata" = Except.ok (Toml.table mdkvs) := rfl
  have e2 : pySub (Toml.table [("metadata", Toml.table mdkvs), ("package", Toml.arr pkgs1)])
      "package" = Except.ok (Toml.arr pkgs1) := rfl
  have e3 : pySub (Toml.table [("metadata", md2), ("package", Toml.arr pkgs2)]) "metadata"
      = Except.ok md2 := rfl
  have e4 : pySub (Toml.table [("metadata", md2), ("package", Toml.arr pkgs2)]) "package"
      = Except.ok (Toml.arr pkgs2) := rfl
  simp only [poetryParse, e1, e2, e3, e4, pyIter]
  rw [hcong]

/-- Witness for C4 at a concrete equivalent document pair. -/
theorem claim_C4_witness :
    poetryParse gen1Doc false Option.none = poetryParse gen2Doc false Option.none :=
  claim_C4 false Option.none
    [("lock-version", Toml.str "1.1"), ("files", Toml.table [("pkga", filesA)])]
    [("pkga", filesA)]
    (Toml.table [("lock-version", Toml.str "2.0")])
    [Toml.table [("name", Toml.str "pkga"), ("version", Toml.str "1.0")]]
    [Toml.table [("name", Toml.str "pkga"), ("version", Toml.str "1.0"), ("files", filesA)]]
    rfl rfl rfl
    (List.Forall₂.cons
      ⟨[("name", Toml.str "pkga"), ("version", Toml.str "1.0")], "pkga", filesA,
        rfl, rfl, rfl, rfl, rfl⟩
      List.Forall₂.nil)

theorem filterMap_id_none_cons {β : Type} (l : List (Option β)) :
    List.filterMap id (Option.none :: l) = List.filterMap id l := rfl

/-- C2: if, for one file descriptor of a package, parsing the composite
hash string fails (the only source of the caught model error), then only
that reference is discarded: a diagnostic is emitted, every other
descriptor still produces its reference in order, the component is still
returned, and no exception propagates. -/
theorem claim_C2 (ver : List Int) (md : Toml) (usePurl : Bool)
    (pkvs : List (String × Toml)) (nameV versionV filesV : Toml)
    (pre post : List Toml) (bad : Toml) (m : String)
    (hname : findEntry pkvs "name" = some nameV)
    (hversion : findEntry pkvs "version" = some versionV)
    (hfiles : resolveFiles ver md (Toml.table pkvs) = Except.ok filesV)
    (hiter : pyIter filesV = Except.ok (pre ++ bad :: post))
    (hbad : refAttempt (pyStr nameV) (pyStr versionV) bad
      = Except.error (PyErr.cdxModelError m))
    (hok : ∀ fm, fm ∈ pre ++ post →
      ∃ r, refAttempt (pyStr nameV) (pyStr versionV) fm = Except.ok r) :
    ∃ comp logs rs,
      processPackageD ver md usePurl (Toml.table pkvs) = (Except.ok comp, logs) ∧
      emapM (refAttempt (pyStr nameV) (pyStr versionV)) (pre ++ post) = Except.ok rs ∧
      comp.externalReferences = rs ∧
      DbgMsg.warnSuppressed (PyErr.cdxModelError m) ∈ logs := by
  obtain ⟨rs1, hrs1⟩ :=
    emapM_ok_of_forall _ pre (fun x hx => hok x (List.mem_append_left _ hx))
  obtain ⟨rs2, hrs2⟩ :=
    emapM_ok_of_forall _ post (fun x hx => hok x (List.mem_append_right _ hx))
  have hpre := dmapM_processFileD_ok (pyStr nameV) (pyStr versionV) pre rs1 hrs1
  have hpost := dmapM_processFileD_ok (pyStr nameV) (pyStr versionV) post rs2 hrs2
  have hbadD : processFileD (pyStr nameV) (pyStr versionV) bad
      = (Except.ok Option.none,
         [DbgMsg.processingFileMetadata bad,
          DbgMsg.warnSuppressed (PyErr.cdxModelError m)]) := by
    simp [processFileD, hbad]
  have hbp : dmapM (processFileD (pyStr nameV) (pyStr versionV)) (bad :: post)
      = (Except.ok (Option.none :: rs2.map some),
         [DbgMsg.processingFileMetadata bad,
          DbgMsg.warnSuppressed (PyErr.cdxModelError m)]
           ++ post.map DbgMsg.processingFileMetadata) := by
    simp [dmapM, hbadD, hpost]
  have hfull : dmapM (processFileD (pyStr nameV) (pyStr versionV)) (pre ++ bad :: post)
      = (Except.ok (rs1.map some ++ Option.none :: rs2.map some),
         pre.map DbgMsg.processingFileMetadata
           ++ ([DbgMsg.processingFileMetadata bad,
                DbgMsg.warnSuppressed (PyErr.cdxModelError m)]
             ++ post.map DbgMsg.processingFileMetadata)) := by
    rw [dmapM_ok_append (processFileD (pyStr nameV) (pyStr versionV)) pre (bad :: post)
        (rs1.map some) (pre.map DbgMsg.processingFileMetadata) hpre, hbp]
  have hn : pySub (Toml.table pkvs) "name" = Except.ok nameV := by simp [pySub, hname]
  have hv : pySub (Toml.table pkvs) "version" = Except.ok versionV := by
    simp [pySub, hversion]
  have hmain : processPackageD ver md usePurl (Toml.table pkvs)
      = (Except.ok
          { name := pyStr nameV
            version := pyStr versionV
            bomRef := if usePurl then
                some (purlToString
                  { ptype := "pypi", name := pyStr nameV, version := pyStr versionV })
              else Option.none
            purl := some { ptype := "pypi", name := pyStr nameV, version := pyStr versionV }
            properties := if pyTruthy ((findEntry pkvs "category").getD Toml.null) then
                [{ name := packageGroupPropName,
                   value := pyStr ((findEntry pkvs "category").getD Toml.null) }]
              else []
            externalReferences :=
              List.filterMap id (List.map some rs1 ++ Option.none :: List.map some rs2) },
         [DbgMsg.processingPackage (Toml.table pkvs), DbgMsg.detectingFiles,
          DbgMsg.processingFiles filesV]
           ++ (List.map DbgMsg.processingFileMetadata pre
             ++ ([DbgMsg.processingFileMetadata bad,
                  DbgMsg.warnSuppressed (PyErr.cdxModelError m)]
               ++ List.map DbgMsg.processingFileMetadata post))) := by
    simp only [processPackageD, hn, hv, pyGet, hfiles, hiter, hfull]
  refine ⟨_, _, rs1 ++ rs2, hmain, emapM_append _ pre post rs1 rs2 hrs1 hrs2, ?_, ?_⟩
  · show List.filterMap id (List.map some rs1 ++ Option.none :: List.map some rs2)
      = rs1 ++ rs2
    rw [List.filterMap_append, filterMap_id_map_some, filterMap_id_none_cons,
      filterMap_id_map_some]
  · simp

/-- Witness for C2: a concrete package with a malformed middle
descriptor keeps the two valid references and logs the warning. -/
theorem claim_C2_witness :
    ∃ comp logs rs,
      processPackageD [2] Toml.null false
        (Toml.table
          [("name", Toml.str "pkg"), ("version", Toml.str "1.0"),
           ("files", Toml.arr [c2good1, c2bad, c2good2])]) = (Except.ok comp, logs) ∧
      emapM (refAttempt "pkg" "1.0") ([c2good1] ++ [c2good2]) = Except.ok rs ∧
      comp.externalReferences = rs ∧
      DbgMsg.warnSuppressed (PyErr.cdxModelError
        "Unable to determine hash type from not-a-valid-hash") ∈ logs :=
  claim_C2 [2] Toml.null false
    [("name", Toml.str "pkg"), ("version", Toml.str "1.0"),
     ("files", Toml.arr [c2good1, c2bad, c2good2])]
    (Toml.str "pkg") (Toml.str "1.0")
    (Toml.arr [c2good1, c2bad, c2good2])
    [c2good1] [c2good2] c2bad
    "Unable to determine hash type from not-a-valid-hash"
    rfl rfl rfl rfl rfl
    (by
      intro fm hfm
      have h2 : fm ∈ [c2good1, c2good2] := hfm
      cases h2 with
      | head => exact ⟨_, rfl⟩
      | tail _ h3 =>
        cases h3 with
        | head => exact ⟨_, rfl⟩
        | tail _ h4 => cases h4)
